import Mathlib

/-!
Shallow embedding of the read path of the block-based SST table reader
(`yb/rocksdb/table/block_based_table_reader.cc`), together with theorems
settling the frozen claims about it.

Byte strings (`Slice`) are modelled as `List Nat`; machine integers as `Nat`
(offsets and sizes never overflow in the modelled paths, and varint encoding
is defined on `Nat` exactly as `EncodeVarint64` emits bytes).
-/

namespace BBT

/-- A byte string (rocksdb `Slice` contents). -/

abbrev ByteStr := List Nat

/-- Bytewise (lexicographic) three-way comparison, the `BytewiseComparator`. -/

def byteCompare : ByteStr → ByteStr → Ordering
  | [], [] => .eq
  | [], _ :: _ => .lt
  | _ :: _, [] => .gt
  | a :: as, b :: bs =>
    if a < b then .lt else if b < a then .gt else byteCompare as bs

/-- Test `a < b` bytewise. -/

def byteLt (a b : ByteStr) : Bool := byteCompare a b == .lt

/-- Test `a ≤ b` bytewise (used by `Block::Seek`: find first entry with key ≥ target). -/

def byteLe (a b : ByteStr) : Bool := byteCompare a b != .gt

/-- Status codes of the modelled error taxonomy. -/

inductive Status where
  | ok
  | notFound
  | corruption
  | invalidArgument
  | incomplete
deriving DecidableEq, Repr

def Status.isOk : Status → Bool
  | .ok => true
  | _ => false

def Status.isIncomplete : Status → Bool
  | .incomplete => true
  | _ => false

/-- Model of `BlockHandle`: a pair (offset, size) locating a block in a file. -/

structure BlockHandle where
  offset : Nat
  size : Nat
deriving DecidableEq, Repr

/-- Model of `BlockHandle::IsNull()`: the null handle stub (offset 0, size 0), used by
`GetFixedSizeFilterBlockHandle` to signal "key beyond filter index". -/

def BlockHandle.isNull (h : BlockHandle) : Bool := h.offset == 0 && h.size == 0

/-- Model of `EncodeVarint64`: little-endian base-128 groups, high bit marks continuation. -/

def encodeVarint64 (v : Nat) : ByteStr :=
  if h : v < 128 then [v]
  else (v % 128 + 128) :: encodeVarint64 (v / 128)
decreasing_by exact Nat.div_lt_self (by omega) (by omega)

/-- Model of `GetVarint64`: decode one varint from the front, returning value and rest. -/

def getVarint64 : ByteStr → Option (Nat × ByteStr)
  | [] => none
  | b :: rest =>
    if b < 128 then some (b, rest)
    else
      match getVarint64 rest with
      | some (v, r) => some ((b - 128) + 128 * v, r)
      | none => none

/-- Model of `BlockHandle::DecodeFrom`: two varints (offset, then size). -/

def BlockHandle.decodeFrom (s : ByteStr) : Except Status BlockHandle :=
  match getVarint64 s with
  | some (off, rest) =>
    match getVarint64 rest with
    | some (sz, _) => .ok ⟨off, sz⟩
    | none => .error .corruption
  | none => .error .corruption

/-- Model of `BlockBasedTable::GetCacheKey`: the file's cache-key prefix followed by the
block's offset encoded as a varint. -/

def getCacheKey (cacheKeyPrefix : ByteStr) (handle : BlockHandle) : ByteStr :=
  cacheKeyPrefix ++ encodeVarint64 handle.offset

/-- Model of `BlockBasedTable::GenerateCachePrefix`: use the OS file unique id when the
file provides one (nonempty); otherwise varint-encode a cache-allocated id. -/

def generateCachePrefix (fileUniqueId : ByteStr) (cacheNewId : Nat) : ByteStr :=
  if fileUniqueId.length = 0 then encodeVarint64 cacheNewId else fileUniqueId

/-- Model of `BlockBasedTable::CachableEntry<T>`: a value that may be backed by a
refcounted cache handle. Values and handles are opaque ids here. -/

structure CachableEntryM where
  value : Option Nat
  cacheHandle : Option Nat
deriving DecidableEq, Repr

/-- The cache, observed through its release events (each `Cache::Release`
appends the released handle). -/

structure CacheM where
  releases : List Nat
deriving DecidableEq, Repr

/-- Model of `Cache::Release`. -/

def CacheM.release (c : CacheM) (h : Nat) : CacheM := ⟨c.releases ++ [h]⟩

/-- Model of `CachableEntry::Release`: release the handle if one is held and null out
both fields; otherwise do nothing. -/

def centryRelease (e : CachableEntryM) (c : CacheM) : CachableEntryM × CacheM :=
  match e.cacheHandle with
  | some h => (⟨none, none⟩, c.release h)
  | none => (e, c)

/-- Iterate `CachableEntry::Release` `n` times. -/

def centryReleaseN : Nat → CachableEntryM × CacheM → CachableEntryM × CacheM
  | 0, p => p
  | n + 1, p => centryReleaseN n (centryRelease p.1 p.2)

-- Varint encoding facts used for the cache-key claims.

/-- Filter types (`FilterPolicy::FilterType`). -/

inductive FilterType where
  | kNoFilter
  | kFullFilter
  | kBlockBasedFilter
  | kFixedSizeFilter
deriving DecidableEq, Repr

def kFullFilterBlockPrefix : String := "fullfilter."

def kFilterBlockPrefix : String := "filter."

def kFixedSizeFilterBlockPrefix : String := "fixedsizefilter."

def kHashIndexPrefixesBlock : String := "rocksdb.hashindex.prefixes"

def kHashIndexPrefixesMetadataBlock : String := "rocksdb.hashindex.metadata"

def kIndexTypePropertyName : String := "rocksdb.block.based.table.index.type"

/-- The meta-index block: well-known names mapped to encoded block handles. -/

abbrev MetaIndex := List (String × ByteStr)

/-- Model of `FindMetaBlock`: look the name up in the meta-index and decode the handle;
missing name or undecodable handle is an error. -/

def findMetaBlock (meta : MetaIndex) (name : String) : Except Status BlockHandle :=
  match meta.find? (fun e => e.1 == name) with
  | some e => BlockHandle.decodeFrom e.2
  | none => .error .corruption

/-- The filter-discovery loop of `BlockBasedTable::Open`: try each candidate
prefix concatenated with the policy name; the first successful
`FindMetaBlock` fixes the filter type and handle and stops the scan. -/

def scanFilterPrefixes (meta : MetaIndex) (policyName : String) :
    List String → FilterType × BlockHandle → FilterType × BlockHandle
  | [], acc => acc
  | p :: ps, acc =>
    match findMetaBlock meta (p ++ policyName) with
    | .ok h =>
      (if p = kFullFilterBlockPrefix then FilterType.kFullFilter
       else if p = kFilterBlockPrefix then FilterType.kBlockBasedFilter
       else if p = kFixedSizeFilterBlockPrefix then FilterType.kFixedSizeFilter
       else acc.1, h)
    | .error _ => scanFilterPrefixes meta policyName ps acc

/-- The filter discovery of `Open`: runs only when a filter policy is
configured; `Rep` initializes `filter_type` to `kNoFilter`. -/

def openFindFilter (meta : MetaIndex) (filterPolicyName : Option String)
    (initHandle : BlockHandle) : FilterType × BlockHandle :=
  match filterPolicyName with
  | some name =>
    scanFilterPrefixes meta name
      [kFullFilterBlockPrefix, kFilterBlockPrefix, kFixedSizeFilterBlockPrefix]
      (FilterType.kNoFilter, initHandle)
  | none => (FilterType.kNoFilter, initHandle)

/-- Model of `DecodeFixed32`: little-endian 32-bit decode of the first four bytes. -/

def decodeFixed32 (s : ByteStr) : Nat :=
  s.getD 0 0 + 256 * s.getD 1 0 + 65536 * s.getD 2 0 + 16777216 * s.getD 3 0

/-- An index reader: either plain binary search over the index block, or the
hash-augmented variant (whose auxiliary structure may or may not have been
attached). Entries are (key, encoded block handle) pairs of the index block. -/

inductive IndexReaderM where
  | binarySearch (entries : List (ByteStr × ByteStr))
  | hashIndex (entries : List (ByteStr × ByteStr)) (auxLoaded : Bool)
deriving DecidableEq, Repr

/-- The parts of the file/environment `CreateDataBlockIndexReader` touches. -/

structure IndexWorld where
  /-- Result of `ReadBlockFromFile` on the footer's index handle. -/
  readIndexBlock : Except Status (List (ByteStr × ByteStr))
  /-- The meta-index (for the hash-index auxiliary blocks). -/
  metaIndex : MetaIndex
  /-- Result of `ReadBlockContents` per handle (hash auxiliary blocks). -/
  readBlockContents : BlockHandle → Except Status ByteStr
  /-- Whether building the in-memory hash structure succeeds. -/
  createHashAuxOk : Bool

/-- Model of `BinarySearchIndexReader::Create`. -/

def binarySearchIndexReaderCreate (w : IndexWorld) : Except Status IndexReaderM :=
  match w.readIndexBlock with
  | .ok entries => .ok (.binarySearch entries)
  | .error s => .error s

/-- Model of `HashIndexReader::Create`: reads the index block, then tries to attach the
prefix auxiliary; auxiliary problems degrade to the plain reader (except a
failed read of the prefixes block, which propagates). -/

def hashIndexReaderCreate (w : IndexWorld) : Except Status IndexReaderM :=
  match w.readIndexBlock with
  | .error s => .error s
  | .ok entries =>
    match findMetaBlock w.metaIndex kHashIndexPrefixesBlock with
    | .error _ => .ok (.hashIndex entries false)
    | .ok prefixesHandle =>
      match findMetaBlock w.metaIndex kHashIndexPrefixesMetadataBlock with
      | .error _ => .ok (.hashIndex entries false)
      | .ok prefixesMetaHandle =>
        match w.readBlockContents prefixesHandle with
        | .error s => .error s
        | .ok _ =>
          match w.readBlockContents prefixesMetaHandle with
          | .error _ => .ok (.hashIndex entries false)
          | .ok _ => .ok (.hashIndex entries w.createHashAuxOk)

/-- Model of `BlockBasedTable::CreateDataBlockIndexReader`: reads the index type
recorded in the table properties (default binary search), falls back to
binary search when `kHashSearch` is recorded but no prefix extractor is
configured, and dispatches on the resulting type. -/

def createDataBlockIndexReader (tableProperties : Option (List (String × ByteStr)))
    (prefixExtractorPresent : Bool) (w : IndexWorld) : Except Status IndexReaderM :=
  let indexTypeOnFile :=
    match tableProperties with
    | some props =>
      match props.find? (fun e => e.1 == kIndexTypePropertyName) with
      | some e => decodeFixed32 e.2
      | none => 0
    | none => 0
  let indexTypeOnFile :=
    if indexTypeOnFile == 1 && !prefixExtractorPresent then 0 else indexTypeOnFile
  if indexTypeOnFile == 0 then binarySearchIndexReaderCreate w
  else if indexTypeOnFile == 1 then hashIndexReaderCreate w
  else .error .invalidArgument

/-- A filter block reader, as its behavioural interface: `KeyMayMatch` and
`PrefixMayMatch`, each taking the probed key and a data-block offset (the
offset defaults to 0 in the source and is ignored by non-block-based
filters). -/

structure FilterBlockReaderM where
  keyMayMatch : ByteStr → Nat → Bool
  prefixMayMatch : ByteStr → Nat → Bool

/-- Model of `NotMatchingFilterBlockReader`: the constant not-matching sentinel. -/

def notMatchingFilter : FilterBlockReaderM :=
  ⟨fun _ _ => false, fun _ _ => false⟩

/-- A prefix extractor (`SliceTransform`): domain test plus transform. -/

structure PrefixExtractorM where
  inDomain : ByteStr → Bool
  transform : ByteStr → ByteStr

/-- The fields of `BlockBasedTable::Rep` the modelled read paths consult. -/

structure Rep where
  /-- Field `rep_->filter_policy != nullptr`. -/
  filterPolicy : Bool
  /-- Field `rep_->filter_key_transformer`. -/
  filterKeyTransformer : Option (ByteStr → ByteStr)
  /-- Field `rep_->ioptions.prefix_extractor`. -/
  prefixExtractor : Option PrefixExtractorM
  filterType : FilterType
  /-- Field `table_options.cache_index_and_filter_blocks`. -/
  cacheIndexAndFilterBlocks : Bool
  /-- Field `table_options.block_cache != nullptr`. -/
  blockCachePresent : Bool
  /-- Field `rep_->filter` (pre-loaded filter, reader lifetime). -/
  preloadedFilter : Option FilterBlockReaderM
  /-- Entries of the fixed-size filter index block (`rep_->filter_index_reader`,
  a binary-search index): (key, encoded filter-block handle), sorted bytewise. -/
  filterIndexEntries : List (ByteStr × ByteStr)
  /-- Field `rep_->filter_handle`. -/
  filterHandle : BlockHandle
  /-- Field `rep_->data_index_reader` when pre-loaded: the index entries. -/
  dataIndexEntries : Option (List (ByteStr × ByteStr))
  /-- Cache-key prefix of the base file reader. -/
  cacheKeyPrefix : ByteStr

/-- The cache and file contents the filter/index paths can observe. -/

structure FilterWorld where
  /-- Result of `block_cache->Lookup` for filter cache keys: the resident filter, if any. -/
  cacheLookup : ByteStr → Option FilterBlockReaderM
  /-- Whether `block_cache->Insert` of the filter succeeds. -/
  cacheInsertOk : Bool
  /-- Outcome of `ReadFilterBlock` (a file read): the constructed reader, or
  `none` on read/construction failure. -/
  fileFilterBlock : BlockHandle → Option FilterBlockReaderM
  /-- Result of `block_cache->Lookup` of the data-block index reader, if resident. -/
  indexCacheLookup : Option (List (ByteStr × ByteStr))
  /-- The `CreateDataBlockIndexReader` outcome when the index must be read from
  the file (a file read). -/
  createIndexReader : Except Status (List (ByteStr × ByteStr))
  /-- The `block_cache->Insert` status for the freshly created index reader. -/
  indexInsertStatus : Status

/-- Model of `Block::Seek` on a sorted block: the first entry whose key is
not less than the target under the comparator. -/

def blockSeek (cmp : ByteStr → ByteStr → Ordering)
    (entries : List (ByteStr × ByteStr)) (target : ByteStr) :
    Option (ByteStr × ByteStr) :=
  entries.find? (fun e => cmp e.1 target != .lt)

/-- Model of `BlockBasedTable::GetFixedSizeFilterBlockHandle`: seek the filter index by
the filter key; past-the-end means the key is absent from every filter, which
is signalled by the null handle stub. -/

def getFixedSizeFilterBlockHandle (rep : Rep) (filterKey : ByteStr) :
    Except Status BlockHandle :=
  match blockSeek byteCompare rep.filterIndexEntries filterKey with
  | some e => BlockHandle.decodeFrom e.2
  | none => .ok ⟨0, 0⟩

/-- Model of `BlockBasedTable::GetFilterKey`: the user key, then the filter policy's
key transformer when one is configured. -/

def getFilterKey (rep : Rep) (internalKey : ByteStr) : ByteStr :=
  let userKey := internalKey.take (internalKey.length - 8)
  match rep.filterKeyTransformer with
  | some t => t userKey
  | none => userKey

/-- A `CachableEntry<FilterBlockReader>`: the filter plus the cache handle it
came from (the cache key stands in for the handle). -/

structure FilterEntry where
  value : Option FilterBlockReaderM
  cacheHandle : Option ByteStr

/-- Observable outcome of `BlockBasedTable::GetFilter`. -/

structure GetFilterResult where
  entry : FilterEntry
  /-- File block reads performed (`ReadFilterBlock`). -/
  fileReads : Nat
  /-- The freshly read filter was deleted after a failed cache insert. -/
  freedValue : Bool

/-- Model of `BlockBasedTable::GetFilter`. -/

def getFilter (rep : Rep) (w : FilterWorld) (no_io : Bool)
    (filterKey : Option ByteStr) : GetFilterResult :=
  let isFixedSizeFilter := rep.filterType == FilterType.kFixedSizeFilter
  if !rep.cacheIndexAndFilterBlocks && !isFixedSizeFilter then
    -- Filter (except fixed-size) is pre-populated; return it as-is.
    ⟨⟨rep.preloadedFilter, none⟩, 0, false⟩
  else if !rep.filterPolicy || !rep.blockCachePresent then
    ⟨⟨none, none⟩, 0, false⟩
  else
    match (if isFixedSizeFilter then
             match getFixedSizeFilterBlockHandle rep (filterKey.getD []) with
             | .ok h =>
               if h.isNull then
                 -- Key is beyond the filter index: the sentinel entry.
                 .inl (⟨some notMatchingFilter, none⟩ : FilterEntry)
               else .inr h
             | .error _ =>
               -- Undecodable filter-index entry: log, assert in debug, no filter.
               .inl (⟨none, none⟩ : FilterEntry)
           else .inr rep.filterHandle : FilterEntry ⊕ BlockHandle) with
    | .inl e => ⟨e, 0, false⟩
    | .inr handle =>
      let ckey := getCacheKey rep.cacheKeyPrefix handle
      match w.cacheLookup ckey with
      | some f => ⟨⟨some f, some ckey⟩, 0, false⟩
      | none =>
        if no_io && rep.filterType != FilterType.kFixedSizeFilter then
          ⟨⟨none, none⟩, 0, false⟩
        else
          -- Fixed-size filters ignore no_io and load through the cache.
          match w.fileFilterBlock handle with
          | some f =>
            if w.cacheInsertOk then ⟨⟨some f, some ckey⟩, 1, false⟩
            else ⟨⟨none, none⟩, 1, true⟩
          | none => ⟨⟨none, none⟩, 1, false⟩

/-- Model of `ExtractUserKey`: an internal key is the user key followed by 8 bytes of
packed (sequence, type). -/

def extractUserKey (internalKey : ByteStr) : ByteStr :=
  internalKey.take (internalKey.length - 8)

/-- Model of `PutFixed64(PackSequenceAndType(kMaxSequenceNumber, kTypeValue))`: the
8-byte little-endian tail of the synthetic internal key built by
`PrefixMayMatch` (value `0xFFFFFFFFFFFFFF01`). -/

def kMaxSeqTypeValueSuffix : ByteStr := [1, 255, 255, 255, 255, 255, 255, 255]

/-- Model of `DecodeFixed64`, little-endian, of the first eight bytes. -/

def decodeFixed64 (s : ByteStr) : Nat :=
  s.getD 0 0 + 256 * s.getD 1 0 + 256 ^ 2 * s.getD 2 0 + 256 ^ 3 * s.getD 3 0 +
  256 ^ 4 * s.getD 4 0 + 256 ^ 5 * s.getD 5 0 + 256 ^ 6 * s.getD 6 0 +
  256 ^ 7 * s.getD 7 0

/-- Model of `InternalKeyComparator`: user keys ascending bytewise; ties broken by the
packed (sequence, type) value descending. -/

def internalCompare (a b : ByteStr) : Ordering :=
  match byteCompare (extractUserKey a) (extractUserKey b) with
  | .eq =>
    let an := decodeFixed64 (a.drop (a.length - 8))
    let bn := decodeFixed64 (b.drop (b.length - 8))
    if bn < an then .lt else if an < bn then .gt else .eq
  | o => o

/-- An index iterator: the index entries it ranges over, or an error iterator
carrying a non-ok status. -/

structure IndexIterM where
  entries : List (ByteStr × ByteStr)
  status : Status
deriving Repr

/-- Model of `BlockBasedTable::NewIndexIterator`, observable behaviour: a pre-loaded
index reader is used directly; otherwise the block cache is consulted; a miss
under `no_io` yields an `Incomplete` error iterator; otherwise the index is
created from the file (a read) and inserted into the cache. Returns the
iterator and the number of file reads. -/

def newIndexIterator (rep : Rep) (w : FilterWorld) (no_io : Bool) :
    IndexIterM × Nat :=
  match rep.dataIndexEntries with
  | some es => (⟨es, .ok⟩, 0)
  | none =>
    match w.indexCacheLookup with
    | some es => (⟨es, .ok⟩, 0)
    | none =>
      if no_io then (⟨[], .incomplete⟩, 0)
      else
        match w.createIndexReader with
        | .ok es =>
          match w.indexInsertStatus with
          | .ok => (⟨es, .ok⟩, 1)
          | s => (⟨[], s⟩, 1)
        | .error s => (⟨[], s⟩, 1)

/-- Result of `Seek` on an index iterator: the entry found (none = invalid)
and the iterator's status afterwards. -/

structure SeekResult where
  found : Option (ByteStr × ByteStr)
  status : Status

/-- Model of `Seek` on an index iterator: error iterators stay invalid with their
status; otherwise binary search for the first entry ≥ target. -/

def iterSeek (it : IndexIterM) (cmp : ByteStr → ByteStr → Ordering)
    (target : ByteStr) : SeekResult :=
  if it.status ≠ .ok then ⟨none, it.status⟩
  else ⟨blockSeek cmp it.entries target, .ok⟩

/-- Observable outcome of `BlockBasedTable::PrefixMayMatch`. -/

structure PMMResult where
  mayMatch : Bool
  fileReads : Nat
deriving DecidableEq, Repr

/-- Model of `BlockBasedTable::PrefixMayMatch`: probe the non-block-based filter with
the prefix, then seek the index (under `read_tier = BlockCacheTier`) to the
synthetic internal key `(prefix, maxSeq, Value)`; an invalid index position is
"may match" exactly when the status is `Incomplete`; when the found entry's
user key starts with the prefix the answer is true; else a block-based filter
is probed at the entry's block offset. The filter fetch passes `no_io = true`.
Counts the file reads the call performs. -/

def prefixMayMatchFn (rep : Rep) (w : FilterWorld) (internalKey : ByteStr) :
    PMMResult :=
  if !rep.filterPolicy then ⟨true, 0⟩
  else
    match rep.prefixExtractor with
    | none => ⟨true, 0⟩  -- the source asserts prefix_extractor != nullptr here
    | some pe =>
      let userKey := extractUserKey internalKey
      let filterKey := getFilterKey rep internalKey
      if !pe.inDomain filterKey || !pe.inDomain userKey then ⟨true, 0⟩
      else
        let userKeyPrefix := pe.transform userKey
        let filterKeyPrefix := pe.transform filterKey
        let internalPrefix := userKeyPrefix ++ kMaxSeqTypeValueSuffix
        let gf := getFilter rep w true (some filterKey)
        let isBlockBasedFilter := rep.filterType == FilterType.kBlockBasedFilter
        let mayMatch1 :=
          match gf.entry.value with
          | some f =>
            if !isBlockBasedFilter then f.prefixMayMatch filterKeyPrefix 0 else true
          | none => true
        let iiter := newIndexIterator rep w true
        let mayMatch2 :=
          if mayMatch1 then
            let sr := iterSeek iiter.1 internalCompare internalPrefix
            match sr.found with
            | none =>
              -- Past end of file; Incomplete means the index was not resident,
              -- so conservatively "may match".
              sr.status.isIncomplete
            | some e =>
              if (extractUserKey internalPrefix).isPrefixOf (extractUserKey e.1) then
                true
              else
                match gf.entry.value with
                | some f =>
                  if isBlockBasedFilter then
                    match BlockHandle.decodeFrom e.2 with
                    | .ok h => f.prefixMayMatch filterKeyPrefix h.offset
                    -- The source asserts the handle decodes.
                    | .error _ => f.prefixMayMatch filterKeyPrefix 0
                  else true
                | none => true
          else false
        ⟨mayMatch2, gf.fileReads + iiter.2⟩

/-- Model of `BlockBasedTable::NonBlockBasedFilterKeyMayMatch`: no filter means "may
match"; otherwise the whole-key probe, then (when a prefix extractor applies
to the filter key) the prefix probe. -/

def nonBlockBasedFilterKeyMayMatch (rep : Rep)
    (filter : Option FilterBlockReaderM) (filterKey : ByteStr) : Bool :=
  match filter with
  | none => true
  | some f =>
    if !f.keyMayMatch filterKey 0 then false
    else
      match rep.prefixExtractor with
      | some pe =>
        if pe.inDomain filterKey && !f.prefixMayMatch (pe.transform filterKey) 0 then
          false
        else true
      | none => true

/-- The underlying two-level iterator, abstracted to an opaque position plus
validity; `Seek` on it is an arbitrary transition function. -/

structure BaseIterM where
  pos : Nat
  valid : Bool
deriving DecidableEq, Repr

/-- Observable outcome of `BloomFilterAwareIterator::Seek`: the underlying
iterator afterwards, the wrapper's `valid_` flag, and the number of
`BLOOM_FILTER_USEFUL` ticks recorded. -/

structure BfaiSeekResult where
  base : BaseIterM
  valid : Bool
  usefulTicks : Nat
deriving DecidableEq, Repr

/-- Model of `BloomFilterAwareIterator::Seek`: with filters skipped or a non-fixed-size
filter type, delegate to the underlying iterator (`InternalSeek`). For a
fixed-size filter, fetch the filter (through the cache; `no_io` is the
read-tier flag) and probe it with the transformed key; on a definitive miss
mark the wrapper invalid without moving the underlying iterator and record
`BLOOM_FILTER_USEFUL`. The fetched entry is released afterwards. -/

def bfaiSeek (rep : Rep) (w : FilterWorld) (skipFilters : Bool) (no_io : Bool)
    (seekFn : ByteStr → BaseIterM) (cur : BaseIterM) (internalKey : ByteStr) :
    BfaiSeekResult :=
  let internalSeek : BfaiSeekResult :=
    let b := seekFn internalKey
    ⟨b, b.valid, 0⟩
  if skipFilters then internalSeek
  else if rep.filterType == FilterType.kFixedSizeFilter then
    let filterKey := getFilterKey rep internalKey
    let gf := getFilter rep w no_io (some filterKey)
    if nonBlockBasedFilterKeyMayMatch rep gf.entry.value filterKey then
      internalSeek
    else
      ⟨cur, false, 1⟩
  else internalSeek

/-- The loop of `BlockBasedTable::Prefetch`: walk the index entries in order;
once an entry's key reaches `end` the boundary flag is set and that one entry
is still loaded; a second such entry stops the loop. `loadBlock` is the
status `NewDataBlockIterator` yields for the entry's encoded handle (loading
the block into the cache); a failure aborts. Returns the entries whose blocks
were loaded, in order. -/

def prefetchLoop (loadBlock : ByteStr → Status) (endKey : Option ByteStr) :
    List (ByteStr × ByteStr) → Bool → Except Status (List (ByteStr × ByteStr))
  | [], _ => .ok []
  | e :: rest, boundary =>
    let hitEnd := match endKey with
      | some ek => internalCompare e.1 ek != .lt
      | none => false
    if hitEnd && boundary then .ok []
    else
      match loadBlock e.2 with
      | .ok =>
        match prefetchLoop loadBlock endKey rest (boundary || hitEnd) with
        | .ok loaded => .ok (e :: loaded)
        | .error s => .error s
      | s => .error s

/-- Model of `BlockBasedTable::Prefetch`: reject `begin > end` (internal comparator),
open the index iterator (default read options), seek to `begin` (or to the
first entry) and run the prefetch loop. -/

def prefetch (rep : Rep) (w : FilterWorld) (loadBlock : ByteStr → Status)
    (begin endKey : Option ByteStr) : Except Status (List (ByteStr × ByteStr)) :=
  let bad : Bool := match begin, endKey with
    | some b, some e => internalCompare b e == .gt
    | _, _ => false
  if bad then .error .invalidArgument
  else
    let it : IndexIterM := (newIndexIterator rep w false).1
    if it.status ≠ .ok then .error it.status
    else
      let start : List (ByteStr × ByteStr) := match begin with
        | some b => it.entries.dropWhile (fun e => internalCompare e.1 b == .lt)
        | none => it.entries
      prefetchLoop loadBlock endKey start false

/-- A data `Block`: entries, the trailer's compression tag (0 = none) and the
writer-determined cachable flag. -/

structure BlockM where
  entries : List (ByteStr × ByteStr)
  compressionType : Nat
  cachable : Bool
deriving DecidableEq, Repr

/-- Result of decompressing a block: a fresh heap block with the same
entries, no compression, cachable. -/

def uncompressBlock (b : BlockM) : BlockM := ⟨b.entries, 0, true⟩

/-- The data-block caches and data file, as `NewDataBlockIterator` and its
helpers observe them. -/

structure DataWorld where
  /-- Cache-key prefix of the data file reader (`data_reader_with_cache_prefix`). -/
  dataCacheKeyPrefix : ByteStr
  /-- Compressed-cache key prefix of the data file reader. -/
  compressedCacheKeyPrefix : ByteStr
  /-- Field `table_options.block_cache_compressed != nullptr`. -/
  blockCacheCompressedPresent : Bool
  /-- Uncompressed block cache lookup by cache key. -/
  cacheLookup : ByteStr → Option BlockM
  /-- Compressed block cache lookup by cache key. -/
  compressedCacheLookup : ByteStr → Option BlockM
  /-- Status of `block_cache->Insert`. -/
  cacheInsertStatus : Status
  /-- Status of `block_cache_compressed->Insert`. -/
  compressedCacheInsertStatus : Status
  /-- Status of `UncompressBlockContents`. -/
  uncompressStatus : Status
  /-- The raw block stored on file at a handle (`ReadBlockContents`). -/
  fileBlock : BlockHandle → Option BlockM

/-- Outcome of `GetDataBlockFromCache`. -/

structure CacheGetResult where
  status : Status
  value : Option BlockM
  cacheHandle : Option ByteStr
  /-- The freshly decompressed block was deleted after a failed insert. -/
  freedValue : Bool
deriving DecidableEq, Repr

/-- Model of `BlockBasedTable::GetDataBlockFromCache`: uncompressed cache first; then
the compressed cache, decompressing on hit and (when `fill_cache` and the
block is cachable) inserting into the uncompressed cache; a failed insert
deletes the freshly decompressed block and surfaces the failure status. -/

def getDataBlockFromCache (key ckey : ByteStr) (blockCache blockCacheCompressed : Bool)
    (dw : DataWorld) (fillCache : Bool) : CacheGetResult :=
  let tryCompressed : CacheGetResult :=
    if !blockCacheCompressed then ⟨.ok, none, none, false⟩
    else
      match dw.compressedCacheLookup ckey with
      | none => ⟨.ok, none, none, false⟩
      | some cb =>
        match dw.uncompressStatus with
        | .ok =>
          let value := uncompressBlock cb
          if blockCache && value.cachable && fillCache then
            match dw.cacheInsertStatus with
            | .ok => ⟨.ok, some value, some key, false⟩
            | s => ⟨s, none, none, true⟩
          else ⟨.ok, some value, none, false⟩
        | s => ⟨s, none, none, false⟩
  if blockCache then
    match dw.cacheLookup key with
    | some b => ⟨.ok, some b, some key, false⟩
    | none => tryCompressed
  else tryCompressed

/-- Outcome of `PutDataBlockToCache`. -/

structure PutResult where
  status : Status
  value : Option BlockM
  cacheHandle : Option ByteStr
  /-- The raw (compressed) block was deleted by the caller. -/
  freedRaw : Bool
  /-- The uncompressed block was deleted after a failed insert. -/
  freedValue : Bool
deriving DecidableEq, Repr

/-- Model of `BlockBasedTable::PutDataBlockToCache`: decompress the raw block when
needed (a failure frees it and returns); insert the still-compressed raw
block into the compressed cache (on success the cache takes ownership,
otherwise the raw block is deleted); insert the uncompressed block into the
block cache, deleting it and surfacing the failure status when the insert
fails. -/

def putDataBlockToCache (key ckey : ByteStr) (blockCache blockCacheCompressed : Bool)
    (dw : DataWorld) (raw : BlockM) : PutResult :=
  let afterUncompress : BlockM → Bool → PutResult := fun value rawHeld =>
    let compressedAttempted := blockCacheCompressed && rawHeld && raw.cachable
    let s1 : Status := if compressedAttempted then dw.compressedCacheInsertStatus else .ok
    -- `delete raw_block`: frees unless the compressed cache took ownership.
    let freedRaw := rawHeld && !(compressedAttempted && s1 == .ok)
    if blockCache && value.cachable then
      match dw.cacheInsertStatus with
      | .ok => ⟨.ok, some value, some key, freedRaw, false⟩
      | s => ⟨s, none, none, freedRaw, true⟩
    else ⟨s1, some value, none, freedRaw, false⟩
  if raw.compressionType ≠ 0 then
    match dw.uncompressStatus with
    | .ok => afterUncompress (uncompressBlock raw) true
    | s => ⟨s, none, none, true, false⟩
  else afterUncompress raw false

/-- Observable outcome of `NewDataBlockIterator`: the status the (input)
iterator carries, the block entries it ranges over (none for an error
iterator), whether its cleanup is a cache release (vs a heap free), file
reads performed, and whether some freshly built block was deleted after a
failed cache insert. -/

structure DataIterResult where
  status : Status
  blockEntries : Option (List (ByteStr × ByteStr))
  registeredCacheRelease : Bool
  fileReads : Nat
  freedValue : Bool
deriving DecidableEq, Repr

/-- The tail of `NewDataBlockIterator` after the cache stage: a still-missing
block under `no_io` is `Incomplete`; otherwise it is read (decompressed) from
the file; a non-ok status yields an error iterator. -/

def dataIterFinish (dw : DataWorld) (no_io : Bool) (handle : BlockHandle)
    (s : Status) (value : Option BlockM) (cacheHandle : Option ByteStr)
    (freed : Bool) (reads : Nat) : DataIterResult :=
  match s, value with
  | .ok, none =>
    if no_io then ⟨.incomplete, none, false, reads, freed⟩
    else
      match dw.fileBlock handle with
      | some raw => ⟨.ok, some (uncompressBlock raw).entries, false, reads + 1, freed⟩
      | none => ⟨.corruption, none, false, reads + 1, freed⟩
  | .ok, some v => ⟨.ok, some v.entries, cacheHandle.isSome, reads, freed⟩
  | s, _ => ⟨s, none, false, reads, freed⟩

/-- Model of `BlockBasedTable::NewDataBlockIterator`: decode the handle; consult the
caches when configured; on a miss with I/O allowed and `fill_cache`, read the
raw block from the file (leaving it compressed when a compressed cache is
configured) and run `PutDataBlockToCache`; finish via `dataIterFinish`. -/

def newDataBlockIterator (rep : Rep) (dw : DataWorld) (no_io fillCache : Bool)
    (indexValue : ByteStr) : DataIterResult :=
  match BlockHandle.decodeFrom indexValue with
  | .error s => ⟨s, none, false, 0, false⟩
  | .ok handle =>
    if rep.blockCachePresent || dw.blockCacheCompressedPresent then
      let key := getCacheKey dw.dataCacheKeyPrefix handle
      let ckey := getCacheKey dw.compressedCacheKeyPrefix handle
      let g := getDataBlockFromCache key ckey rep.blockCachePresent
        dw.blockCacheCompressedPresent dw fillCache
      if g.value.isNone && !no_io && fillCache then
        match dw.fileBlock handle with
        | some rawStored =>
          -- ReadBlockFromFile with do_uncompress = (no compressed cache).
          let raw := if !dw.blockCacheCompressedPresent && rawStored.compressionType ≠ 0
            then uncompressBlock rawStored else rawStored
          let p := putDataBlockToCache key ckey rep.blockCachePresent
            dw.blockCacheCompressedPresent dw raw
          dataIterFinish dw no_io handle p.status p.value p.cacheHandle
            (g.freedValue || p.freedValue) 1
        | none => dataIterFinish dw no_io handle .corruption none none g.freedValue 1
      else dataIterFinish dw no_io handle g.status g.value g.cacheHandle g.freedValue 0
    else dataIterFinish dw no_io handle .ok none none false 0

/-- Observable outcome of `BlockBasedTable::Get`. -/

structure GetResultM where
  status : Status
  /-- Whether `get_context->MarkKeyMayExist()` was called. -/
  keyMayExist : Bool
  /-- Index values for which `NewDataBlockIterator` was invoked, in order. -/
  attempted : List ByteStr
deriving Repr

/-- Inner scan of a data block in `Get`: call `SaveValue` on each entry from
the seek position until it signals "done" (returns false). -/

def scanSave (saveValue : ByteStr → ByteStr → Bool) :
    List (ByteStr × ByteStr) → Bool
  | [] => false
  | kv :: rest => if !saveValue kv.1 kv.2 then true else scanSave saveValue rest

/-- The per-index-entry loop of `Get`: an optional block-based filter probe at
the block's offset (a definitive miss stops the whole Get); then the data
block is opened — an `Incomplete` open under `no_io` marks the key as
possibly existing and stops; other errors stop with that status; otherwise
the block is scanned and the loop continues unless `SaveValue` said done. -/

def getLoop (rep : Rep) (dw : DataWorld) (no_io fillCache : Bool)
    (saveValue : ByteStr → ByteStr → Bool) (ikey : ByteStr)
    (skipFilters : Bool) (filter : Option FilterBlockReaderM)
    (filterKey : ByteStr) : List (ByteStr × ByteStr) → GetResultM
  | [] => ⟨.ok, false, []⟩
  | e :: rest =>
    let absentFromFilter :=
      if !skipFilters && rep.filterType == FilterType.kBlockBasedFilter then
        match BlockHandle.decodeFrom e.2, filter with
        | .ok h, some f => !f.keyMayMatch filterKey h.offset
        -- The source dereferences `filter` unconditionally here; in the
        -- reachable configurations it is non-null.
        | _, _ => false
      else false
    if absentFromFilter then ⟨.ok, false, []⟩
    else
      let biter := newDataBlockIterator rep dw no_io fillCache e.2
      if no_io && biter.status == .incomplete then ⟨.ok, true, [e.2]⟩
      else if biter.status ≠ .ok then ⟨biter.status, false, [e.2]⟩
      else
        let blockVals := (biter.blockEntries.getD []).dropWhile
          (fun kv => internalCompare kv.1 ikey == .lt)
        if scanSave saveValue blockVals then ⟨.ok, false, [e.2]⟩
        else
          let r := getLoop rep dw no_io fillCache saveValue ikey skipFilters
            filter filterKey rest
          ⟨r.status, r.keyMayExist, e.2 :: r.attempted⟩

/-- The filter key `Get` uses (empty when filters are skipped). -/

def getFilterKeyForGet (rep : Rep) (ikey : ByteStr) (skipFilters : Bool) : ByteStr :=
  if skipFilters then [] else getFilterKey rep ikey

/-- The filter `Get` fetches (none when filters are skipped). -/

def getFilterValueForGet (rep : Rep) (fw : FilterWorld) (no_io : Bool)
    (ikey : ByteStr) (skipFilters : Bool) : Option FilterBlockReaderM :=
  if skipFilters then none
  else (getFilter rep fw no_io (some (getFilterKeyForGet rep ikey skipFilters))).entry.value

/-- Model of `BlockBasedTable::Get`: fetch the filter (unless skipped); a definitive
non-block-based filter miss ends the query; otherwise seek the index to the
internal key and run the per-block loop; a final ok status is replaced by the
index iterator's status. -/

def getTable (rep : Rep) (fw : FilterWorld) (dw : DataWorld)
    (no_io fillCache : Bool) (saveValue : ByteStr → ByteStr → Bool)
    (ikey : ByteStr) (skipFilters : Bool) : GetResultM :=
  let filterKey := getFilterKeyForGet rep ikey skipFilters
  let filter := getFilterValueForGet rep fw no_io ikey skipFilters
  let isBlockBased := rep.filterType == FilterType.kBlockBasedFilter
  if !isBlockBased && !(nonBlockBasedFilterKeyMayMatch rep filter filterKey) then
    ⟨.ok, false, []⟩
  else
    let iiter := (newIndexIterator rep fw no_io).1
    let startEntries := if iiter.status == .ok
      then iiter.entries.dropWhile (fun e => internalCompare e.1 ikey == .lt)
      else []
    let r := getLoop rep dw no_io fillCache saveValue ikey skipFilters filter
      filterKey startEntries
    if r.status == .ok then ⟨iiter.status, r.keyMayExist, r.attempted⟩ else r


theorem encodeVarint64_small {v : Nat} (h : v < 128) : encodeVarint64 v = [v] := by
  unfold encodeVarint64
  simp [h]

theorem encodeVarint64_large {v : Nat} (h : ¬ v < 128) :
    encodeVarint64 v = (v % 128 + 128) :: encodeVarint64 (v / 128) := by
  conv_lhs => unfold encodeVarint64
  simp [h]

theorem encodeVarint64_ne_nil (v : Nat) : encodeVarint64 v ≠ [] := by
  by_cases h : v < 128
  · rw [encodeVarint64_small h]; simp
  · rw [encodeVarint64_large h]; simp

/-- Varint encodings are a prefix code: equal concatenations with arbitrary
suffixes force equal values and equal suffixes. -/
theorem encodeVarint64_prefix_free :
    ∀ (a : Nat) (b : Nat) (s t : ByteStr),
      encodeVarint64 a ++ s = encodeVarint64 b ++ t → a = b ∧ s = t := by
  intro a
  induction a using Nat.strong_induction_on with
  | _ a ih =>
    intro b s t hEq
    by_cases ha : a < 128
    · by_cases hb : b < 128
      · rw [encodeVarint64_small ha, encodeVarint64_small hb] at hEq
        simp at hEq
        exact ⟨hEq.1, hEq.2⟩
      · rw [encodeVarint64_small ha, encodeVarint64_large hb] at hEq
        simp at hEq
        omega
    · by_cases hb : b < 128
      · rw [encodeVarint64_large ha, encodeVarint64_small hb] at hEq
        simp at hEq
        omega
      · rw [encodeVarint64_large ha, encodeVarint64_large hb] at hEq
        simp at hEq
        obtain ⟨hhead, htail⟩ := hEq
        have hlt : a / 128 < a := Nat.div_lt_self (by omega) (by omega)
        obtain ⟨hdiv, hst⟩ := ih (a / 128) hlt (b / 128) s t htail
        constructor
        · omega
        · exact hst

/-- C6: the filter block is searched under the candidate prefixes in the fixed
order `fullfilter.`, `filter.`, `fixedsizefilter.` (each concatenated with the
policy name); the first name found determines the filter type (full,
block-based, fixed-size respectively) and its handle, and the search stops;
when none is found the filter type stays `kNoFilter`. -/
theorem c6_filter_discovery_order :
    ∀ (meta : MetaIndex) (name : String) (h0 : BlockHandle),
      openFindFilter meta (some name) h0 =
        (match findMetaBlock meta (kFullFilterBlockPrefix ++ name) with
         | .ok h => (FilterType.kFullFilter, h)
         | .error _ =>
           match findMetaBlock meta (kFilterBlockPrefix ++ name) with
           | .ok h => (FilterType.kBlockBasedFilter, h)
           | .error _ =>
             match findMetaBlock meta (kFixedSizeFilterBlockPrefix ++ name) with
             | .ok h => (FilterType.kFixedSizeFilter, h)
             | .error _ => (FilterType.kNoFilter, h0)) ∧
      openFindFilter meta none h0 = (FilterType.kNoFilter, h0) := by
  intro meta name h0
  constructor
  · show scanFilterPrefixes meta name _ _ = _
    unfold scanFilterPrefixes
    cases findMetaBlock meta (kFullFilterBlockPrefix ++ name) with
    | ok h => simp [kFullFilterBlockPrefix]
    | error e1 =>
      simp only
      unfold scanFilterPrefixes
      cases findMetaBlock meta (kFilterBlockPrefix ++ name) with
      | ok h => simp [kFilterBlockPrefix, kFullFilterBlockPrefix]
      | error e2 =>
        simp only
        unfold scanFilterPrefixes
        cases findMetaBlock meta (kFixedSizeFilterBlockPrefix ++ name) with
        | ok h =>
          simp [kFixedSizeFilterBlockPrefix, kFilterBlockPrefix, kFullFilterBlockPrefix]
        | error e3 => simp [scanFilterPrefixes]
  · rfl

/-- C6 witness: a meta-index holding both a block-based and a fixed-size
filter entry under policy name "p" resolves to the block-based filter (the
first prefix in the order that matches), and an empty meta-index leaves
`kNoFilter`. -/
theorem c6_filter_discovery_witness :
    openFindFilter [("filter.p", [7, 3]), ("fixedsizefilter.p", [9, 4])]
        (some "p") ⟨0, 0⟩ = (FilterType.kBlockBasedFilter, ⟨7, 3⟩) ∧
    openFindFilter [] (some "p") ⟨0, 0⟩ = (FilterType.kNoFilter, ⟨0, 0⟩) := by
  have h1 := (c6_filter_discovery_order
    [("filter.p", [7, 3]), ("fixedsizefilter.p", [9, 4])] "p" ⟨0, 0⟩).1
  have h2 := (c6_filter_discovery_order [] "p" ⟨0, 0⟩).1
  constructor
  · rw [h1]; decide
  · rw [h2]; decide

/-- C5: when the index type recorded on file is `kHashSearch` but no prefix
extractor is configured, creating the data-block index reader substitutes a
plain binary-search index reader (identical to the `kBinarySearch` path) and
succeeds whenever the index block is readable. -/
theorem c5_hash_search_fallback
    (props : List (String × ByteStr)) (w : IndexWorld) (v : ByteStr)
    (hfind : props.find? (fun e => e.1 == kIndexTypePropertyName) = some (kIndexTypePropertyName, v))
    (hty : decodeFixed32 v = 1) :
    createDataBlockIndexReader (some props) false w = binarySearchIndexReaderCreate w ∧
    (∀ entries, w.readIndexBlock = .ok entries →
      createDataBlockIndexReader (some props) false w = .ok (.binarySearch entries)) := by
  have hmain : createDataBlockIndexReader (some props) false w = binarySearchIndexReaderCreate w := by
    unfold createDataBlockIndexReader
    simp only [hfind, hty]
    norm_num
  refine ⟨hmain, ?_⟩
  intro entries hread
  rw [hmain]
  unfold binarySearchIndexReaderCreate
  rw [hread]

/-- C5 witness: a concrete table whose properties record index type 1
(`kHashSearch`, little-endian fixed32) and whose index block reads fine, with
no prefix extractor, yields the binary-search reader. -/
theorem c5_hash_search_fallback_witness :
    createDataBlockIndexReader (some [(kIndexTypePropertyName, [1, 0, 0, 0])]) false
      ⟨.ok [([65], [7, 3])], [], fun _ => .error .corruption, true⟩ =
      .ok (.binarySearch [([65], [7, 3])]) :=
  (c5_hash_search_fallback [(kIndexTypePropertyName, [1, 0, 0, 0])]
      ⟨.ok [([65], [7, 3])], [], fun _ => .error .corruption, true⟩ [1, 0, 0, 0]
      (by decide) (by decide)).2 [([65], [7, 3])] rfl

/-- C2: for a fixed-size filter, when the transformed filter key seeks past
the last entry of the filter index (every index key is bytewise below it),
`GetFilter` returns the constant not-matching sentinel filter — whose
`KeyMayMatch` and `PrefixMayMatch` are false for every key and block offset —
with no filter-block fetch (zero file reads) and no cache handle. -/
theorem c2_fixed_size_sentinel
    (rep : Rep) (w : FilterWorld) (no_io : Bool) (filterKey : ByteStr)
    (hty : rep.filterType = FilterType.kFixedSizeFilter)
    (hpol : rep.filterPolicy = true)
    (hbc : rep.blockCachePresent = true)
    (hpast : ∀ e ∈ rep.filterIndexEntries, byteCompare e.1 filterKey = .lt) :
    getFilter rep w no_io (some filterKey) =
      ⟨⟨some notMatchingFilter, none⟩, 0, false⟩ ∧
    (∀ k o, notMatchingFilter.keyMayMatch k o = false ∧
            notMatchingFilter.prefixMayMatch k o = false) := by
  constructor
  · have hseek : blockSeek byteCompare rep.filterIndexEntries filterKey = none := by
      unfold blockSeek
      rw [List.find?_eq_none]
      intro e he
      rw [hpast e he]
      decide
    have hhandle : getFixedSizeFilterBlockHandle rep filterKey = .ok ⟨0, 0⟩ := by
      unfold getFixedSizeFilterBlockHandle
      rw [hseek]
    unfold getFilter
    rw [hty, hpol, hbc]
    simp only [Option.getD]
    rw [hhandle]
    simp [BlockHandle.isNull]
  · intro k o
    exact ⟨rfl, rfl⟩

/-- C2 witness: a concrete fixed-size filter whose index covers keys up to
`[81]` ("Q") returns the sentinel for filter key `[90]` ("Z"). -/
theorem c2_fixed_size_sentinel_witness :
    getFilter
      ⟨true, none, none, FilterType.kFixedSizeFilter, false, true, none,
        [([81], [16, 100])], ⟨0, 0⟩, none, [9]⟩
      ⟨fun _ => none, true, fun _ => none, none, .error .corruption, .ok⟩
      true (some [90]) = ⟨⟨some notMatchingFilter, none⟩, 0, false⟩ :=
  (c2_fixed_size_sentinel _ _ true [90] rfl rfl rfl
    (by intro e he; simp at he; rw [he]; decide)).1

/-- C1 counterexample: a concrete table with a fixed-size filter whose filter
block is not cache-resident. `PrefixMayMatch` calls `GetFilter`, which for
fixed-size filters deliberately ignores `no_io` and reads the filter block
from the file: one file read, refuting "issues no file I/O for every internal
key". -/
theorem c1_prefix_may_match_does_io :
    (prefixMayMatchFn
      ⟨true, none, some ⟨fun _ => true, fun u => u⟩, FilterType.kFixedSizeFilter,
        false, true, none, [([200], [16, 100])], ⟨0, 0⟩, some [], [9]⟩
      ⟨fun _ => none, true, fun _ => some ⟨fun _ _ => true, fun _ _ => true⟩,
        none, .error .corruption, .ok⟩
      ([65] ++ kMaxSeqTypeValueSuffix)).fileReads = 1 := by
  decide

/-- Helper: for every non-fixed-size filter type, `GetFilter` under `no_io`
performs no file read (a cache miss returns the empty entry instead). -/
theorem getFilter_noio_no_reads (rep : Rep) (w : FilterWorld)
    (hty : rep.filterType ≠ FilterType.kFixedSizeFilter) (fk : Option ByteStr) :
    (getFilter rep w true fk).fileReads = 0 := by
  have hbeq : (rep.filterType == FilterType.kFixedSizeFilter) = false := by
    simp [hty]
  have hne : (rep.filterType != FilterType.kFixedSizeFilter) = true := by
    simp [hty]
  unfold getFilter
  simp only [hbeq, Bool.not_false, Bool.and_true]
  cases hci : rep.cacheIndexAndFilterBlocks with
  | false => rfl
  | true =>
    simp only [Bool.not_true, Bool.false_eq_true, if_false]
    cases hfp : rep.filterPolicy with
    | false => rfl
    | true =>
      cases hbc : rep.blockCachePresent with
      | false => rfl
      | true =>
        simp only [Bool.not_true, Bool.or_self, Bool.false_eq_true, if_false]
        cases w.cacheLookup (getCacheKey rep.cacheKeyPrefix rep.filterHandle) with
        | some f => rfl
        | none => simp [hne]

/-- C1 (amended): under `read_tier = BlockCacheTier` the index access of
`PrefixMayMatch` never reads from the file (a non-resident index yields an
`Incomplete` seek, which is conservatively treated as "may match"), and for
every non-fixed-size filter type the whole call performs zero file reads. For
a fixed-size filter the `GetFilter` call ignores `no_io` and may read the
filter block from the file (see the counterexample). -/
theorem c1_no_io_amended :
    ∀ (rep : Rep) (w : FilterWorld) (k : ByteStr),
      (newIndexIterator rep w true).2 = 0 ∧
      (rep.filterType ≠ FilterType.kFixedSizeFilter →
        (prefixMayMatchFn rep w k).fileReads = 0) ∧
      (rep.dataIndexEntries = none → w.indexCacheLookup = none →
        (getFilter rep w true (some (getFilterKey rep k))).entry.value = none →
        (prefixMayMatchFn rep w k).mayMatch = true) := by
  intro rep w k
  have hidx : ∀ no_io, no_io = true → (newIndexIterator rep w no_io).2 = 0 := by
    intro no_io hni
    unfold newIndexIterator
    cases rep.dataIndexEntries with
    | some es => rfl
    | none =>
      cases w.indexCacheLookup with
      | some es => rfl
      | none => simp [hni]
  refine ⟨hidx true rfl, ?_, ?_⟩
  · intro hty
    unfold prefixMayMatchFn
    by_cases hfp : rep.filterPolicy
    · simp only [hfp]
      cases rep.prefixExtractor with
      | none => rfl
      | some pe =>
        by_cases hdom : (!pe.inDomain (getFilterKey rep k) || !pe.inDomain (extractUserKey k)) = true
        · simp [hdom]
        · simp only [hdom, Bool.not_true, if_neg, Bool.false_eq_true, if_false]
          rw [getFilter_noio_no_reads rep w hty, hidx true rfl]
    · simp [hfp]
  · intro hd hc hval
    unfold prefixMayMatchFn
    by_cases hfp : rep.filterPolicy
    · simp only [hfp]
      cases rep.prefixExtractor with
      | none => rfl
      | some pe =>
        by_cases hdom : (!pe.inDomain (getFilterKey rep k) || !pe.inDomain (extractUserKey k)) = true
        · simp [hdom]
        · simp only [hdom, Bool.not_true, if_neg, Bool.false_eq_true, if_false]
          simp only [hval]
          have hiter : newIndexIterator rep w true = (⟨[], .incomplete⟩, 0) := by
            unfold newIndexIterator
            rw [hd, hc]
            simp
          rw [hiter]
          simp [iterSeek, Status.isIncomplete]
    · simp [hfp]

/-- C1 amended witness: at a concrete non-fixed-size-filter table the call
performs zero reads, and with nothing resident the answer is conservatively
true. -/
theorem c1_no_io_amended_witness :
    (prefixMayMatchFn
      ⟨true, none, some ⟨fun _ => true, fun u => u⟩, FilterType.kFullFilter,
        true, true, none, [], ⟨3, 4⟩, none, [9]⟩
      ⟨fun _ => none, true, fun _ => none, none, .error .corruption, .ok⟩
      ([65] ++ kMaxSeqTypeValueSuffix)).fileReads = 0 ∧
    (prefixMayMatchFn
      ⟨true, none, some ⟨fun _ => true, fun u => u⟩, FilterType.kFullFilter,
        true, true, none, [], ⟨3, 4⟩, none, [9]⟩
      ⟨fun _ => none, true, fun _ => none, none, .error .corruption, .ok⟩
      ([65] ++ kMaxSeqTypeValueSuffix)).mayMatch = true := by
  constructor
  · exact (c1_no_io_amended _ _ _).2.1 (by decide)
  · exact (c1_no_io_amended _ _ _).2.2 rfl rfl rfl

/-- C3 counterexample: fixed-size filter, filters not skipped, and a cached
filter whose `KeyMayMatch` is true for every key but whose `PrefixMayMatch`
is false (with the transformed key in the prefix extractor's domain): the
key-may-match test on the transformed key is true, yet `Seek` does not
delegate — the underlying iterator stays put and the wrapper goes invalid —
refuting "otherwise Seek delegates unchanged to the underlying iterator". -/
theorem c3_seek_not_delegating_despite_key_match :
    (getFilter
        ⟨true, none, some ⟨fun _ => true, fun u => u⟩, FilterType.kFixedSizeFilter,
          false, true, none, [([200], [16, 100])], ⟨0, 0⟩, none, [9]⟩
        ⟨fun _ => some ⟨fun _ _ => true, fun _ _ => false⟩, true, fun _ => none,
          none, .error .corruption, .ok⟩
        false (some (getFilterKey
          ⟨true, none, some ⟨fun _ => true, fun u => u⟩, FilterType.kFixedSizeFilter,
            false, true, none, [([200], [16, 100])], ⟨0, 0⟩, none, [9]⟩
          ([65] ++ kMaxSeqTypeValueSuffix)))).entry.value.isSome = true ∧
    (∀ f, (getFilter
        ⟨true, none, some ⟨fun _ => true, fun u => u⟩, FilterType.kFixedSizeFilter,
          false, true, none, [([200], [16, 100])], ⟨0, 0⟩, none, [9]⟩
        ⟨fun _ => some ⟨fun _ _ => true, fun _ _ => false⟩, true, fun _ => none,
          none, .error .corruption, .ok⟩
        false (some (getFilterKey
          ⟨true, none, some ⟨fun _ => true, fun u => u⟩, FilterType.kFixedSizeFilter,
            false, true, none, [([200], [16, 100])], ⟨0, 0⟩, none, [9]⟩
          ([65] ++ kMaxSeqTypeValueSuffix)))).entry.value = some f →
      f.keyMayMatch ([65]) 0 = true) ∧
    bfaiSeek
      ⟨true, none, some ⟨fun _ => true, fun u => u⟩, FilterType.kFixedSizeFilter,
        false, true, none, [([200], [16, 100])], ⟨0, 0⟩, none, [9]⟩
      ⟨fun _ => some ⟨fun _ _ => true, fun _ _ => false⟩, true, fun _ => none,
        none, .error .corruption, .ok⟩
      false false (fun _ => ⟨1, true⟩) ⟨0, true⟩ ([65] ++ kMaxSeqTypeValueSuffix) =
      ⟨⟨0, true⟩, false, 1⟩ ∧
    (fun _ => (⟨1, true⟩ : BaseIterM)) ([65] ++ kMaxSeqTypeValueSuffix) ≠ ⟨0, true⟩ := by
  refine ⟨rfl, ?_, rfl, by decide⟩
  intro f hf
  have : f = ⟨fun _ _ => true, fun _ _ => false⟩ := by
    have := hf
    simp only [getFilter, getFilterKey] at this
    cases this
    rfl
  rw [this]

/-- C3 (amended): for a fixed-size filter with filters not skipped, `Seek`
marks the wrapper invalid without moving the underlying iterator and records
one `BLOOM_FILTER_USEFUL` tick exactly when the combined
`NonBlockBasedFilterKeyMayMatch` test (whole-key probe, then prefix probe) on
the transformed user key is false — in particular whenever the filter's
`KeyMayMatch` is false; otherwise, and for every non-fixed-size filter type
or with filters skipped, `Seek` delegates unchanged to the underlying
iterator. -/
theorem c3_bfai_seek_amended
    (rep : Rep) (w : FilterWorld) (no_io : Bool) (seekFn : ByteStr → BaseIterM)
    (cur : BaseIterM) (k : ByteStr) :
    (rep.filterType = FilterType.kFixedSizeFilter →
      (nonBlockBasedFilterKeyMayMatch rep
          (getFilter rep w no_io (some (getFilterKey rep k))).entry.value
          (getFilterKey rep k) = false →
        bfaiSeek rep w false no_io seekFn cur k = ⟨cur, false, 1⟩) ∧
      (nonBlockBasedFilterKeyMayMatch rep
          (getFilter rep w no_io (some (getFilterKey rep k))).entry.value
          (getFilterKey rep k) = true →
        bfaiSeek rep w false no_io seekFn cur k =
          ⟨seekFn k, (seekFn k).valid, 0⟩)) ∧
    (∀ f, (getFilter rep w no_io (some (getFilterKey rep k))).entry.value = some f →
      f.keyMayMatch (getFilterKey rep k) 0 = false →
      nonBlockBasedFilterKeyMayMatch rep
        (getFilter rep w no_io (some (getFilterKey rep k))).entry.value
        (getFilterKey rep k) = false) ∧
    (rep.filterType ≠ FilterType.kFixedSizeFilter →
      bfaiSeek rep w false no_io seekFn cur k = ⟨seekFn k, (seekFn k).valid, 0⟩) ∧
    bfaiSeek rep w true no_io seekFn cur k = ⟨seekFn k, (seekFn k).valid, 0⟩ := by
  refine ⟨?_, ?_, ?_, rfl⟩
  · intro hty
    have hbeq : (rep.filterType == FilterType.kFixedSizeFilter) = true := by
      simp [hty]
    constructor
    · intro hmiss
      unfold bfaiSeek
      simp only [hbeq, if_true, Bool.false_eq_true, if_false, hmiss]
    · intro hhit
      unfold bfaiSeek
      simp only [hbeq, if_true, Bool.false_eq_true, if_false, hhit]
  · intro f hf hkmm
    unfold nonBlockBasedFilterKeyMayMatch
    rw [hf]
    simp [hkmm]
  · intro hty
    have hbeq : (rep.filterType == FilterType.kFixedSizeFilter) = false := by
      simp [hty]
    unfold bfaiSeek
    simp [hbeq]

/-- C3 amended witness: at a concrete fixed-size-filter table with a cached
always-false filter, `Seek` leaves the base iterator at its current position,
goes invalid and ticks the statistic; with a full filter it delegates. -/
theorem c3_bfai_seek_amended_witness :
    bfaiSeek
      ⟨true, none, some ⟨fun _ => true, fun u => u⟩, FilterType.kFixedSizeFilter,
        false, true, none, [([200], [16, 100])], ⟨0, 0⟩, none, [9]⟩
      ⟨fun _ => some notMatchingFilter, true, fun _ => none, none,
        .error .corruption, .ok⟩
      false false (fun _ => ⟨1, true⟩) ⟨0, true⟩ ([65] ++ kMaxSeqTypeValueSuffix) =
      ⟨⟨0, true⟩, false, 1⟩ ∧
    bfaiSeek
      ⟨true, none, some ⟨fun _ => true, fun u => u⟩, FilterType.kFullFilter,
        false, true, none, [], ⟨3, 4⟩, none, [9]⟩
      ⟨fun _ => none, true, fun _ => none, none, .error .corruption, .ok⟩
      false false (fun _ => ⟨1, true⟩) ⟨0, true⟩ ([65] ++ kMaxSeqTypeValueSuffix) =
      ⟨⟨1, true⟩, true, 0⟩ :=
  ⟨((c3_bfai_seek_amended _ _ false (fun _ => ⟨1, true⟩) ⟨0, true⟩
      ([65] ++ kMaxSeqTypeValueSuffix)).1 rfl).1 rfl,
   (c3_bfai_seek_amended _ _ false (fun _ => ⟨1, true⟩) ⟨0, true⟩
      ([65] ++ kMaxSeqTypeValueSuffix)).2.2.1 (by decide)⟩

/-- Helper: with the boundary flag already set, a run of entries all at or
past `end` loads nothing more. -/
theorem prefetchLoop_boundary_stops (loadBlock : ByteStr → Status) (ek : ByteStr) :
    ∀ l : List (ByteStr × ByteStr), (∀ e ∈ l, internalCompare e.1 ek ≠ .lt) →
      prefetchLoop loadBlock (some ek) l true = .ok [] := by
  intro l hge
  cases l with
  | nil => rfl
  | cons e rest =>
    have he : internalCompare e.1 ek ≠ .lt := hge e (by simp)
    unfold prefetchLoop
    have hne : (internalCompare e.1 ek != Ordering.lt) = true := by
      cases h : internalCompare e.1 ek <;> first | rfl | simp_all
    simp [hne]

/-- Helper: from the seek position, entries below `end` are all loaded, then
exactly the first entry at or past `end` is loaded, then the loop stops. -/
theorem prefetchLoop_split (loadBlock : ByteStr → Status) (ek : ByteStr) :
    ∀ (l1 l2 : List (ByteStr × ByteStr)),
      (∀ e ∈ l1, internalCompare e.1 ek = .lt) →
      (∀ e ∈ l2, internalCompare e.1 ek ≠ .lt) →
      (∀ e ∈ l1, loadBlock e.2 = .ok) →
      (∀ e ∈ l2.take 1, loadBlock e.2 = .ok) →
      prefetchLoop loadBlock (some ek) (l1 ++ l2) false = .ok (l1 ++ l2.take 1) := by
  intro l1
  induction l1 with
  | nil =>
    intro l2 _ hge _ hload2
    cases l2 with
    | nil => rfl
    | cons e rest =>
      have hge' : internalCompare e.1 ek ≠ .lt := hge e (by simp)
      have he : (internalCompare e.1 ek != Ordering.lt) = true := by
        cases h : internalCompare e.1 ek <;> first | rfl | simp_all
      have hl : loadBlock e.2 = .ok := hload2 e (by simp)
      unfold prefetchLoop
      simp only [List.nil_append, he, Bool.and_false, Bool.false_eq_true, if_false, hl,
        Bool.false_or]
      rw [prefetchLoop_boundary_stops loadBlock ek rest
        (fun x hx => hge x (by simp [hx]))]
      rfl
  | cons a l1' ih =>
    intro l2 hlt hge hload1 hload2
    have hlt' : internalCompare a.1 ek = .lt := hlt a (by simp)
    have ha : (internalCompare a.1 ek != Ordering.lt) = false := by
      rw [hlt']
      rfl
    have hl : loadBlock a.2 = .ok := hload1 a (by simp)
    unfold prefetchLoop
    simp only [List.cons_append, ha, Bool.false_and, Bool.false_eq_true, if_false, hl,
      Bool.or_false]
    rw [ih l2 (fun x hx => hlt x (by simp [hx])) hge
      (fun x hx => hload1 x (by simp [hx])) hload2]

/-- C9: `Prefetch(begin, end)` loads, in index order, the data block of every
index entry whose key is below `end` starting from the seek position for
`begin`, plus exactly one boundary block — the first index entry whose key is
at or past `end` — and then stops. -/
theorem c9_prefetch_boundary
    (rep : Rep) (w : FilterWorld) (loadBlock : ByteStr → Status)
    (b ek : ByteStr) (es l1 l2 : List (ByteStr × ByteStr))
    (hbe : internalCompare b ek ≠ .gt)
    (hes : (newIndexIterator rep w false).1 = ⟨es, .ok⟩)
    (hsplit : es.dropWhile (fun e => internalCompare e.1 b == .lt) = l1 ++ l2)
    (hlt : ∀ e ∈ l1, internalCompare e.1 ek = .lt)
    (hge : ∀ e ∈ l2, internalCompare e.1 ek ≠ .lt)
    (hload1 : ∀ e ∈ l1, loadBlock e.2 = .ok)
    (hload2 : ∀ e ∈ l2.take 1, loadBlock e.2 = .ok) :
    prefetch rep w loadBlock (some b) (some ek) = .ok (l1 ++ l2.take 1) := by
  unfold prefetch
  have hbad : (internalCompare b ek == Ordering.gt) = false := by
    cases h : internalCompare b ek <;> first | rfl | simp_all
  simp only [hbad, Bool.false_eq_true, if_false, hes, ne_eq, not_true_eq_false, ite_false]
  rw [hsplit]
  exact prefetchLoop_split loadBlock ek l1 l2 hlt hge hload1 hload2

/-- C9 witness: index keys "C","H","P","Z" (as internal keys), begin "B",
end "K": the blocks loaded are exactly those ending at "C","H","P" — the last
being the boundary block — and the scan stops there. -/
theorem c9_prefetch_boundary_witness :
    prefetch
      ⟨true, none, none, FilterType.kNoFilter, false, true, none, [], ⟨0, 0⟩,
        some [([67] ++ kMaxSeqTypeValueSuffix, [1]),
              ([72] ++ kMaxSeqTypeValueSuffix, [2]),
              ([80] ++ kMaxSeqTypeValueSuffix, [3]),
              ([90] ++ kMaxSeqTypeValueSuffix, [4])], [9]⟩
      ⟨fun _ => none, true, fun _ => none, none, .error .corruption, .ok⟩
      (fun _ => .ok)
      (some ([66] ++ kMaxSeqTypeValueSuffix)) (some ([75] ++ kMaxSeqTypeValueSuffix)) =
      .ok [([67] ++ kMaxSeqTypeValueSuffix, [1]),
           ([72] ++ kMaxSeqTypeValueSuffix, [2]),
           ([80] ++ kMaxSeqTypeValueSuffix, [3])] :=
  c9_prefetch_boundary _ _ _ _ _
    [([67] ++ kMaxSeqTypeValueSuffix, [1]),
     ([72] ++ kMaxSeqTypeValueSuffix, [2]),
     ([80] ++ kMaxSeqTypeValueSuffix, [3]),
     ([90] ++ kMaxSeqTypeValueSuffix, [4])]
    [([67] ++ kMaxSeqTypeValueSuffix, [1]),
     ([72] ++ kMaxSeqTypeValueSuffix, [2])]
    [([80] ++ kMaxSeqTypeValueSuffix, [3]),
     ([90] ++ kMaxSeqTypeValueSuffix, [4])]
    (by decide) rfl (by decide) (by decide) (by decide)
    (by intro e he; rfl) (by intro e he; rfl)

/-- C4: under `read_tier = BlockCacheTier`, when opening the data block of the
first index entry at or past the key yields `Incomplete` (not resident in
either cache), `Get` calls `MarkKeyMayExist`, attempts no further block, and
returns a non-error (ok) status instead of surfacing `Incomplete`. -/
theorem c4_incomplete_marks_key_may_exist
    (rep : Rep) (fw : FilterWorld) (dw : DataWorld) (fillCache skipFilters : Bool)
    (saveValue : ByteStr → ByteStr → Bool) (ikey : ByteStr)
    (es rest : List (ByteStr × ByteStr)) (e : ByteStr × ByteStr)
    (hnotbb : rep.filterType ≠ FilterType.kBlockBasedFilter)
    (hpass : nonBlockBasedFilterKeyMayMatch rep
      (getFilterValueForGet rep fw true ikey skipFilters)
      (getFilterKeyForGet rep ikey skipFilters) = true)
    (hidx : (newIndexIterator rep fw true).1 = ⟨es, .ok⟩)
    (hstart : es.dropWhile (fun en => internalCompare en.1 ikey == .lt) = e :: rest)
    (hinc : (newDataBlockIterator rep dw true fillCache e.2).status = .incomplete) :
    getTable rep fw dw true fillCache saveValue ikey skipFilters =
      ⟨.ok, true, [e.2]⟩ := by
  unfold getTable
  simp only [hpass, Bool.not_true, Bool.and_false, Bool.false_eq_true, if_false, hidx]
  have hloop : getLoop rep dw true fillCache saveValue ikey skipFilters
      (getFilterValueForGet rep fw true ikey skipFilters)
      (getFilterKeyForGet rep ikey skipFilters) (e :: rest) = ⟨.ok, true, [e.2]⟩ := by
    unfold getLoop
    have hbb : (rep.filterType == FilterType.kBlockBasedFilter) = false := by
      simp [hnotbb]
    simp only [hbb, Bool.and_false, Bool.false_eq_true, if_false, hinc]
    simp
  simp only [hstart, beq_self_eq_true, if_true]
  rw [hloop]
  rfl

/-- C4 witness: a table with no caches configured and a pre-loaded index: the
single matching block cannot be opened under `no_io`, so `Get` marks the key
as possibly existing and returns ok after attempting exactly that block. -/
theorem c4_incomplete_witness :
    getTable
      ⟨true, none, none, FilterType.kNoFilter, false, false, none, [], ⟨0, 0⟩,
        some [([65] ++ kMaxSeqTypeValueSuffix, [16, 100])], [9]⟩
      ⟨fun _ => none, true, fun _ => none, none, .error .corruption, .ok⟩
      ⟨[9], [10], false, fun _ => none, fun _ => none, .ok, .ok, .ok, fun _ => none⟩
      true true (fun _ _ => true) ([65] ++ kMaxSeqTypeValueSuffix) false =
      ⟨.ok, true, [[16, 100]]⟩ :=
  c4_incomplete_marks_key_may_exist _ _ _ true false (fun _ _ => true)
    ([65] ++ kMaxSeqTypeValueSuffix)
    [([65] ++ kMaxSeqTypeValueSuffix, [16, 100])] []
    ([65] ++ kMaxSeqTypeValueSuffix, [16, 100])
    (by decide) rfl rfl (by decide) rfl

/-- C8 counterexample: uncompressed block cache configured, block read from
file fine, but `block_cache->Insert` fails: the freshly read block is freed
(`freedValue`), yet the read does not proceed — `NewDataBlockIterator`
returns an iterator carrying the insert-failure status and no block. -/
theorem c8_insert_failure_not_proceeding :
    newDataBlockIterator
      ⟨true, none, none, FilterType.kNoFilter, false, true, none, [], ⟨0, 0⟩,
        none, [9]⟩
      ⟨[9], [10], false, fun _ => none, fun _ => none, .incomplete, .ok, .ok,
        fun _ => some ⟨[([65], [66])], 0, true⟩⟩
      false true [16, 100] =
      ⟨.incomplete, none, false, 1, true⟩ ∧
    (⟨.incomplete, none, false, 1, true⟩ : DataIterResult).status ≠ .ok := by
  exact ⟨by decide, by decide⟩

/-- C8 (amended): whenever a cache insert fails the value being inserted is
freed by the inserting code. A failed compressed-cache insert frees the raw
block and the read proceeds (the uncompressed block is still returned, with
an ok status when the uncompressed insert succeeds); a failed filter insert
frees the filter and the lookup proceeds with no filter (treated as "may
match"); but a failed insert into the uncompressed block cache surfaces the
failure status to the ongoing read (`PutDataBlockToCache` returns it with no
block value, so the data-block iterator carries the error). -/
theorem c8_insert_failure_amended :
    (∀ (key ckey : ByteStr) (bcc : Bool) (dw : DataWorld) (raw : BlockM),
      raw.compressionType = 0 → raw.cachable = true → dw.cacheInsertStatus ≠ .ok →
      putDataBlockToCache key ckey true bcc dw raw =
        ⟨dw.cacheInsertStatus, none, none, false, true⟩) ∧
    (∀ (key ckey : ByteStr) (dw : DataWorld) (raw : BlockM),
      raw.compressionType ≠ 0 → dw.uncompressStatus = .ok → raw.cachable = true →
      dw.compressedCacheInsertStatus ≠ .ok → dw.cacheInsertStatus = .ok →
      putDataBlockToCache key ckey true true dw raw =
        ⟨.ok, some (uncompressBlock raw), some key, true, false⟩) ∧
    (∀ (rep : Rep) (fw : FilterWorld) (fk : ByteStr),
      rep.filterPolicy = true → rep.blockCachePresent = true →
      rep.cacheIndexAndFilterBlocks = true →
      rep.filterType ≠ FilterType.kFixedSizeFilter →
      fw.cacheLookup (getCacheKey rep.cacheKeyPrefix rep.filterHandle) = none →
      fw.cacheInsertOk = false →
      (∀ f, fw.fileFilterBlock rep.filterHandle = some f →
        getFilter rep fw false (some fk) = ⟨⟨none, none⟩, 1, true⟩ ∧
        nonBlockBasedFilterKeyMayMatch rep none fk = true)) := by
  refine ⟨?_, ?_, ?_⟩
  · intro key ckey bcc dw raw hct hca hfail
    unfold putDataBlockToCache
    simp only [hct, ne_eq, not_true_eq_false, if_false, ite_false, not_false_eq_true]
    simp only [hca, Bool.and_true, Bool.true_and, Bool.and_false, Bool.false_and]
    cases hs : dw.cacheInsertStatus with
    | ok => exact absurd hs hfail
    | notFound => simp [hs]
    | corruption => simp [hs]
    | invalidArgument => simp [hs]
    | incomplete => simp [hs]
  · intro key ckey dw raw hct hunc hca hcfail hok
    unfold putDataBlockToCache
    simp only [hct, ne_eq, not_false_eq_true, if_true, hunc]
    have hcc : (dw.compressedCacheInsertStatus == Status.ok) = false := by
      cases hs : dw.compressedCacheInsertStatus <;> simp_all
    simp only [hca, Bool.and_true, Bool.true_and, hcc, Bool.and_false, Bool.not_false,
      uncompressBlock, hok]
    simp
    exact hcfail
  · intro rep fw fk hpol hbc hcif hty hmiss hins f hfile
    constructor
    · have hbeq : (rep.filterType == FilterType.kFixedSizeFilter) = false := by
        simp [hty]
      unfold getFilter
      simp only [hbeq, hcif, hpol, hbc, Bool.not_true, Bool.false_and, Bool.false_eq_true,
        if_false, Bool.or_self, hmiss, hins, hfile]
    · rfl

/-- C8 amended witness: the three parts applied at concrete inputs — a failed
uncompressed insert frees the block and returns the failure; a failed
compressed insert frees the raw block while the read proceeds; a failed
filter insert frees the filter and the lookup proceeds filterless. -/
theorem c8_insert_failure_amended_witness :
    putDataBlockToCache [1] [2] true false
      ⟨[9], [10], false, fun _ => none, fun _ => none, .incomplete, .ok, .ok, fun _ => none⟩
      ⟨[([65], [66])], 0, true⟩ = ⟨.incomplete, none, none, false, true⟩ ∧
    putDataBlockToCache [1] [2] true true
      ⟨[9], [10], true, fun _ => none, fun _ => none, .ok, .incomplete, .ok, fun _ => none⟩
      ⟨[([65], [66])], 1, true⟩ =
      ⟨.ok, some ⟨[([65], [66])], 0, true⟩, some [1], true, false⟩ ∧
    getFilter
      ⟨true, none, none, FilterType.kFullFilter, true, true, none, [], ⟨3, 4⟩, none, [9]⟩
      ⟨fun _ => none, false, fun _ => some notMatchingFilter, none, .error .corruption, .ok⟩
      false (some [65]) = ⟨⟨none, none⟩, 1, true⟩ :=
  ⟨c8_insert_failure_amended.1 [1] [2] false _ _ rfl rfl (by decide),
   c8_insert_failure_amended.2.1 [1] [2] _ _ (by decide) rfl rfl (by decide) rfl,
   ((c8_insert_failure_amended.2.2 _ _ [65] rfl rfl rfl (by decide) rfl rfl)
      notMatchingFilter rfl).1⟩

/-- Helper: releasing an entry whose handle is already null is a no-op,
any number of times. -/
theorem centryReleaseN_of_none :
    ∀ (n : Nat) (e : CachableEntryM) (c : CacheM), e.cacheHandle = none →
      centryReleaseN n (e, c) = (e, c) := by
  intro n
  induction n with
  | zero => intro e c _; rfl
  | succ n ih =>
    intro e c h
    show centryReleaseN n (centryRelease e c) = (e, c)
    have hrel : centryRelease e c = (e, c) := by
      unfold centryRelease
      rw [h]
    rw [hrel]
    exact ih e c h

/-- C10: `CachableEntry::Release` is idempotent: one release with a non-null
cache handle nulls out both fields, so any number of further releases is a
no-op (the underlying cache handle is released at most once), and releasing an
entry that never held a cache handle is a complete no-op. -/
theorem c10_release_idempotent :
    ∀ (e : CachableEntryM) (c : CacheM) (n : Nat),
      centryReleaseN (n + 1) (e, c) = centryRelease e c ∧
      (centryRelease e c).1.cacheHandle = none ∧
      (∀ h, e.cacheHandle = some h →
        centryRelease e c = (⟨none, none⟩, ⟨c.releases ++ [h]⟩)) ∧
      (e.cacheHandle = none → centryRelease e c = (e, c)) := by
  intro e c n
  refine ⟨?_, ?_, ?_, ?_⟩
  · show centryReleaseN n (centryRelease e c) = centryRelease e c
    cases he : e.cacheHandle with
    | none =>
      have hrel : centryRelease e c = (e, c) := by unfold centryRelease; rw [he]
      rw [hrel]
      exact centryReleaseN_of_none n e c he
    | some h =>
      have hrel : centryRelease e c = (⟨none, none⟩, c.release h) := by
        unfold centryRelease; rw [he]
      rw [hrel]
      exact centryReleaseN_of_none n _ _ rfl
  · cases he : e.cacheHandle with
    | none => unfold centryRelease; rw [he]; exact he
    | some h => unfold centryRelease; rw [he]
  · intro h he
    unfold centryRelease
    rw [he]
    rfl
  · intro he
    unfold centryRelease
    rw [he]

/-- C10 witness: the theorem applied at concrete entries, with and without a
cache handle. -/
theorem c10_release_idempotent_witness :
    centryRelease ⟨some 5, some 7⟩ ⟨[]⟩ = (⟨none, none⟩, ⟨[7]⟩) ∧
    centryRelease ⟨some 5, none⟩ ⟨[3]⟩ = (⟨some 5, none⟩, ⟨[3]⟩) :=
  ⟨(c10_release_idempotent ⟨some 5, some 7⟩ ⟨[]⟩ 0).2.2.1 7 rfl,
   (c10_release_idempotent ⟨some 5, none⟩ ⟨[3]⟩ 0).2.2.2 rfl⟩

/-- C7 counterexample: two distinct blocks (different files, identified by
distinct nonempty OS unique ids, at different offsets) whose cache keys are
equal: file unique id `[1]` with block offset 129 and file unique id
`[1, 129]` with block offset 1 both produce the cache key `[1, 129, 1]`. -/
theorem c7_cache_key_collision :
    generateCachePrefix [1] 0 ≠ generateCachePrefix [1, 129] 0 ∧
    (129 : Nat) ≠ 1 ∧
    getCacheKey (generateCachePrefix [1] 0) ⟨129, 5⟩ =
      getCacheKey (generateCachePrefix [1, 129] 0) ⟨1, 7⟩ := by
  refine ⟨?_, by decide, ?_⟩
  · simp [generateCachePrefix]
  · simp [generateCachePrefix, getCacheKey, encodeVarint64]

/-- C7 (amended): every block's cache key is the file's cache-key prefix
followed by the block offset as a varint, and no two distinct blocks share a
cache key whenever the per-file prefixes are cache-allocated ids (the fallback
path of `GenerateCachePrefix`, a varint of a fresh id) — distinct ids or
distinct offsets give distinct keys. With OS-provided unique ids the
uniqueness can fail when one file's id is a varint-compatible extension of
another's (see the counterexample). -/
theorem c7_cache_key_structure_and_fallback_unique :
    (∀ (prefixBytes : ByteStr) (h : BlockHandle),
      getCacheKey prefixBytes h = prefixBytes ++ encodeVarint64 h.offset) ∧
    (∀ (id1 id2 o1 o2 s1 s2 : Nat), id1 ≠ id2 ∨ o1 ≠ o2 →
      getCacheKey (generateCachePrefix [] id1) ⟨o1, s1⟩ ≠
        getCacheKey (generateCachePrefix [] id2) ⟨o2, s2⟩) := by
  constructor
  · intro p h
    rfl
  · intro id1 id2 o1 o2 s1 s2 hne hEq
    unfold getCacheKey generateCachePrefix at hEq
    simp at hEq
    obtain ⟨hid, hoff⟩ := encodeVarint64_prefix_free id1 id2 _ _ hEq
    obtain ⟨ho, -⟩ := encodeVarint64_prefix_free o1 o2 [] [] (by rw [hoff])
    rcases hne with h | h
    · exact h hid
    · exact h ho

/-- C7 amended witness: distinct cache-allocated ids and offsets at concrete
values yield distinct cache keys, and the key structure at a concrete handle. -/
theorem c7_cache_key_witness :
    getCacheKey [9] ⟨5, 0⟩ = [9] ++ encodeVarint64 5 ∧
    getCacheKey (generateCachePrefix [] 1) ⟨129, 0⟩ ≠
      getCacheKey (generateCachePrefix [] 2) ⟨1, 0⟩ :=
  ⟨c7_cache_key_structure_and_fallback_unique.1 [9] ⟨5, 0⟩,
   c7_cache_key_structure_and_fallback_unique.2 1 2 129 1 0 0 (Or.inl (by decide))⟩

end BBT
